import Mathlib

/-!
Shallow embedding of the IronPyCompiler package (modules
`ironpycompiler.compiler`, `ironpycompiler.detect`,
`ironpycompiler.datatypes`, `ironpycompiler.process`,
`ironpycompiler.exceptions`) together with theorems checking the
natural-language specification against it.

Modelling conventions:
* Python strings are Lean `String`s; paths are POSIX-style strings and the
  relevant `os.path` operations are modelled character-exactly below
  (`normpath` canonicalisation inside `os.path.abspath` is elided: inputs
  are taken to be already free of `..` segments, as in the library's use).
* Python `set` objects are modelled as duplicate-free lists kept in
  ascending code-point order by `setInsert`; this fixes one canonical
  iteration order for a data structure whose iteration order Python leaves
  to the hash implementation.
* Python `dict` objects are modelled as association lists in insertion
  order with distinct keys (`dictSet` overwrites, `List.lookup` reads).
* Exceptions are modelled by `Except` results, effectful collaborators
  (`modulefinder`, `subprocess`, `_winreg`, the filesystem) by explicit
  environment records passed to the functions that consult them.
-/

/-- Code-point comparison of character lists, the model of Python string
`<` (lexicographic by code point). -/
def strListLt : List Char → List Char → Bool
  | [], [] => false
  | [], _ :: _ => true
  | _ :: _, [] => false
  | a :: as, b :: bs =>
    if a.toNat < b.toNat then true
    else if b.toNat < a.toNat then false
    else strListLt as bs

/-- Python string `<` on Lean strings. -/
def strLtB (a b : String) : Bool := strListLt a.data b.data

/-- Insertion into the sorted duplicate-free list that models a Python
`set` of strings (`s.add(x)` and the element-wise part of `|=`). -/
def setInsert (x : String) : List String → List String
  | [] => [x]
  | y :: ys =>
    if strLtB x y then x :: y :: ys
    else if x = y then y :: ys
    else y :: setInsert x ys

/-- Model of `s |= set(xs)`: insert every element of `xs`. -/
def setUnion (s : List String) (xs : List String) : List String :=
  xs.foldl (fun acc x => setInsert x acc) s

/-- Model of `s -= set(xs)`: remove every element of `xs`. -/
def setDiff (s : List String) (xs : List String) : List String :=
  s.filter (fun x => ¬ xs.contains x)

/-- Index of the last occurrence of `c` in `cs`, or `none` (the model of
Python `str.rfind` restricted to single characters). -/
def lastIdxOf (c : Char) (cs : List Char) : Option Nat :=
  match cs.reverse.findIdx? (fun d => d = c) with
  | none => none
  | some i => some (cs.length - 1 - i)

/-- Model of `posixpath.basename`: everything after the last slash. -/
def basename (p : String) : String :=
  match lastIdxOf '/' p.data with
  | none => p
  | some i => ⟨p.data.drop (i + 1)⟩

/-- Model of `posixpath.dirname`: everything up to the last slash, with
trailing slashes stripped unless the result is all slashes. -/
def dirname (p : String) : String :=
  match lastIdxOf '/' p.data with
  | none => ""
  | some i =>
    let head := p.data.take (i + 1)
    if head.all (fun c => c = '/') then ⟨head⟩
    else ⟨(head.reverse.dropWhile (fun c => c = '/')).reverse⟩

/-- Model of `posixpath.splitext`: split off the extension beginning at the
last dot of the basename, provided that dot is not a leading dot of the
basename. -/
def splitext (p : String) : String × String :=
  let cs := p.data
  match lastIdxOf '.' cs with
  | none => (p, "")
  | some d =>
    let s := (((lastIdxOf '/' cs).map (fun i => i + 1)).getD 0)
    if s ≤ d ∧ (List.range d).any (fun j => s ≤ j ∧ cs.get? j ≠ some '.')
    then (⟨cs.take d⟩, ⟨cs.drop d⟩)
    else (p, "")

/-- Model of Python `str.startswith` (computable by kernel reduction). -/
def strStartsWith (s pre : String) : Bool := pre.data.isPrefixOf s.data

/-- Model of Python `str.endswith` (computable by kernel reduction). -/
def strEndsWith (s suf : String) : Bool :=
  suf.data.reverse.isPrefixOf s.data.reverse

/-- Model of `posixpath.join` for two components. -/
def joinPath (a b : String) : String :=
  if strStartsWith b "/" then b
  else if strEndsWith a "/" ∨ a = "" then a ++ b
  else a ++ "/" ++ b

/-- Model of `os.path.abspath` relative to the process working directory
`cwd` (`normpath` canonicalisation elided, see the header comment). -/
def abspath (cwd p : String) : String := joinPath cwd p

/-- Bool test that `sub` occurs as a contiguous sublist of `big`. -/
def listContains (big sub : List Char) : Bool :=
  big.tails.any (fun t => sub.isPrefixOf t)

/-- Bool test that the string `sub` occurs inside the string `s` (the model
of Python `sub in s`). -/
def strContainsB (s sub : String) : Bool := listContains s.data sub.data

/-! ## Model of `ironpycompiler.process.execute_ipy` -/

/-- Configuration with which `execute_ipy` invokes `subprocess.Popen`. -/
structure PopenCall where
  args : List String
  executable : String
  mergeStderrToStdout : Bool
  cwd : String
deriving DecidableEq

/-- Environment abstracting the operating system's process facilities:
which executables can be started, and what a started process writes to each
stream and returns as its exit code. -/
structure ProcessEnv where
  getcwd : String
  canStart : String → Bool
  stdoutOf : PopenCall → String
  stderrOf : PopenCall → String
  returncodeOf : PopenCall → Int

/-- Model of `subprocess.Popen(...)` followed by `communicate()`: an
`OSError` when the executable cannot be started, otherwise the text of the
captured stream (stderr folded into stdout when the call was configured
with `stderr=subprocess.STDOUT`) together with the return code. -/
def popen_communicate (env : ProcessEnv) (call : PopenCall) :
    Except String (String × Int) :=
  if env.canStart call.executable then
    .ok ((if call.mergeStderrToStdout
          then env.stdoutOf call ++ env.stderrOf call
          else env.stdoutOf call),
         env.returncodeOf call)
  else
    .error ("OSError: cannot start " ++ call.executable)

/-- Model of `ironpycompiler.process.execute_ipy`: spawn the executable
with `basename(path_to_exe)` prepended as `argv[0]`, stderr merged into
stdout, blocking until exit, working directory defaulted to `os.getcwd()`
when not supplied. -/
def execute_ipy (env : ProcessEnv) (path_to_exe : String)
    (arguments : List String) (cwd : Option String) :
    Except String (String × Int) :=
  popen_communicate env
    { args := basename path_to_exe :: arguments
      executable := path_to_exe
      mergeStderrToStdout := true
      cwd := match cwd with
             | some c => c
             | none => env.getcwd }

/-! ## Model of `ModuleCompiler.call_pyc` -/

/-- Observable steps taken by `call_pyc`, in program order. -/
inductive PycEvent where
  | createRespFile
  | writeRespLine (line : String)
  | closeRespFile
  | executeCompiler
  | removeRespFile
  | inspectExitCode (code : Int)
  | raiseCompilationError (msg : String)
deriving DecidableEq

/-- Message of the `ModuleCompilationError` raised by `call_pyc`, the model
of `"{0} returned {1} exit status.".format(executable, ipy_result[1])`. -/
def call_pyc_error_msg (executable : String) (code : Int) : String :=
  executable ++ " returned " ++ toString code ++ " exit status."

/-- Content of the response file after the write loop of `call_pyc`, which
appends `line + "\n"` for each argument. -/
def response_file_content (args : List String) : String :=
  args.foldl (fun acc line => acc ++ line ++ "\n") ""

/-- Result of one `call_pyc` invocation: the ordered trace of its
observable steps, the captured compiler output stored in `pyc_stdout`,
whether the response file was removed, and the raised
`ModuleCompilationError` message if any. -/
structure CallPycResult where
  trace : List PycEvent
  pyc_stdout : String
  resp_file_deleted : Bool
  error : Option String
deriving DecidableEq

/-- Model of `ModuleCompiler.call_pyc`, with the external compiler process
abstracted by its combined output `compilerOutput` and exit code
`exitCode`.  The trace records, in source order: creating the response
file, writing one line per argument, closing the file, running the
compiler, removing the response file when `delete_resp` is set, and only
then inspecting the exit code and raising on a non-zero one. -/
def call_pyc (args : List String) (delete_resp : Bool) (executable : String)
    (compilerOutput : String) (exitCode : Int) : CallPycResult :=
  let trace := [PycEvent.createRespFile]
      ++ args.map PycEvent.writeRespLine
      ++ [PycEvent.closeRespFile, PycEvent.executeCompiler]
  let trace := trace ++ (if delete_resp then [PycEvent.removeRespFile] else [])
  let trace := trace ++ [PycEvent.inspectExitCode exitCode]
  if exitCode ≠ 0 then
    { trace := trace ++ [PycEvent.raiseCompilationError
          (call_pyc_error_msg executable exitCode)]
      pyc_stdout := compilerOutput
      resp_file_deleted := delete_resp
      error := some (call_pyc_error_msg executable exitCode) }
  else
    { trace := trace
      pyc_stdout := compilerOutput
      resp_file_deleted := delete_resp
      error := none }

/-! ## Model of `ironpycompiler.datatypes.HashableVersion` -/

/-- Model of `ironpycompiler.datatypes.HashableVersion`, a
`distutils.version.StrictVersion` whose `version` triple is exposed as
`major`, `minor`, `patch`.  A prerelease tag `(letter, number)` is modelled
with the letter's code point as a `Nat`. -/
structure HashableVersion where
  major : Nat
  minor : Nat
  patch : Nat
  prerelease : Option (Nat × Nat) := none
deriving DecidableEq

/-- The `version` triple of a `StrictVersion`. -/
def verTuple (v : HashableVersion) : Nat × Nat × Nat := (v.major, v.minor, v.patch)

/-- Python tuple `<` on version triples. -/
def tupleLtB (a b : Nat × Nat × Nat) : Bool :=
  decide (a.1 < b.1) ||
    (decide (a.1 = b.1) &&
      (decide (a.2.1 < b.2.1) ||
        (decide (a.2.1 = b.2.1) && decide (a.2.2 < b.2.2))))

/-- Python tuple `<` on prerelease pairs. -/
def preLtB (p q : Nat × Nat) : Bool :=
  decide (p.1 < q.1) || (decide (p.1 = q.1) && decide (p.2 < q.2))

/-- Model of `distutils.version.StrictVersion._cmp`: compare the version
triples first; on equal triples a version without a prerelease tag is the
greater; two prerelease tags compare as Python tuples. -/
def verCmp (a b : HashableVersion) : Int :=
  if verTuple a ≠ verTuple b then
    (if tupleLtB (verTuple a) (verTuple b) then -1 else 1)
  else
    match a.prerelease, b.prerelease with
    | none, none => 0
    | some _, none => -1
    | none, some _ => 1
    | some p, some q =>
      if p = q then 0 else (if preLtB p q then -1 else 1)

/-- Bool form of `StrictVersion` strict `<`. -/
def verLtB (a b : HashableVersion) : Bool := verCmp a b == -1

/-- One insertion step of the model of `sorted(·, reverse=True)`. -/
def insertDesc (v : HashableVersion) : List HashableVersion → List HashableVersion
  | [] => [v]
  | w :: ws => if verLtB w v then v :: w :: ws else w :: insertDesc v ws

/-- Model of `sorted(·, reverse=True)` over versions: insertion sort into
descending order under `verCmp`. -/
def sortDesc (l : List HashableVersion) : List HashableVersion :=
  l.foldr insertDesc []

/-- Rank used to linearise the prerelease option: absent tags sort above
present ones on equal triples. -/
def preRank : Option (Nat × Nat) → Nat
  | none => 1
  | some _ => 0

/-- Prerelease letter code, defaulted for absent tags. -/
def preL : Option (Nat × Nat) → Nat
  | none => 0
  | some p => p.1

/-- Prerelease number, defaulted for absent tags. -/
def preN : Option (Nat × Nat) → Nat
  | none => 0
  | some p => p.2

/-- Linear-arithmetic form of strict `<` between versions, used to reason
about `verCmp`. -/
def keyLt (a b : HashableVersion) : Prop :=
  a.major < b.major
  ∨ (a.major = b.major ∧ (a.minor < b.minor
  ∨ (a.minor = b.minor ∧ (a.patch < b.patch
  ∨ (a.patch = b.patch ∧ (preRank a.prerelease < preRank b.prerelease
  ∨ (preRank a.prerelease = preRank b.prerelease ∧ (preL a.prerelease < preL b.prerelease
  ∨ (preL a.prerelease = preL b.prerelease ∧ preN a.prerelease < preN b.prerelease)))))))))

/-- Modelled from the spec: the method `HashableVersion.major_minor` is
invoked from `ironpycompiler.detect` (lines 98, 162, 269) but its
definition is missing from the provided `datatypes.py`; the spec says it
"derives a reduced two-part key", i.e. the `major.minor` string. -/
def HashableVersion.major_minor (v : HashableVersion) : String :=
  toString v.major ++ "." ++ toString v.minor

/-- Numeric value of a non-empty list of decimal digits. -/
def digitsToNat (ds : List Char) : Nat :=
  ds.foldl (fun n c => n * 10 + (c.toNat - '0'.toNat)) 0

/-- Greedy `\d+`: the longest non-empty digit run and the rest. -/
def parseDigits (cs : List Char) : Option (Nat × List Char) :=
  let ds := cs.takeWhile (fun c => c.isDigit)
  if ds.isEmpty then none
  else some (digitsToNat ds, cs.drop ds.length)

/-- Optional prerelease group `([ab](\d+))?` of `StrictVersion`'s version
pattern, returning the tag and the rest. -/
def parsePre (cs : List Char) : Option ((Nat × Nat) × List Char) :=
  match cs with
  | [] => none
  | c :: rest =>
    if c = 'a' ∨ c = 'b' then
      match parseDigits rest with
      | some (n, r) => some ((c.toNat, n), r)
      | none => none
    else none

/-- Model of `StrictVersion.parse` against the anchored pattern
`(\d+)\.(\d+)(\.(\d+))?([ab](\d+))?`: a missing patch group yields patch 0,
and any unconsumed trailing input makes the parse fail (Python raises
`ValueError`, modelled as `none`). -/
def parseVersion (s : String) : Option HashableVersion :=
  match parseDigits s.data with
  | none => none
  | some (major, rest1) =>
    match rest1 with
    | '.' :: rest2 =>
      (match parseDigits rest2 with
      | none => none
      | some (minor, rest3) =>
        let pr : Nat × List Char :=
          match rest3 with
          | '.' :: rest4 =>
            (match parseDigits rest4 with
            | some (patch, r) => (patch, r)
            | none => (0, rest3))
          | _ => (0, rest3)
        match pr.2 with
        | [] => some ⟨major, minor, pr.1, none⟩
        | rest5 =>
          match parsePre rest5 with
          | some (p, []) => some ⟨major, minor, pr.1, some p⟩
          | _ => none)
    | _ => none

/-! ## Model of `ironpycompiler.detect` -/

/-- Dictionary keys of the discovery maps: a full version object when
`detailed` is set, otherwise the reduced `major.minor` string. -/
inductive VersionKey where
  | full (v : HashableVersion)
  | reduced (s : String)
deriving DecidableEq

/-- Discovery result map keyed by `VersionKey`, as an insertion-ordered
association list with distinct keys. -/
abbrev RuntimeMap := List (VersionKey × String)

/-- Detailed discovery result map keyed by full versions, the shape
`auto_detect` works with (`search_ipy(detailed=True)`). -/
abbrev RuntimeMapD := List (HashableVersion × String)

/-- Modelled from the spec: `ironpycompiler.constants` is not among the
provided sources; the executable name is recovered from the sibling script
`pycCompileHelper.py` (`IPYEXE`). -/
def EXECUTABLE : String := "ipy.exe"

/-- Modelled from the spec: `ironpycompiler.constants` is not among the
provided sources; the candidate registry key paths are recovered from the
sibling script `pycCompileHelper.py` (`IPYREGKEYS`). -/
def REGKEYS : List String := ["SOFTWARE\\IronPython", "SOFTWARE\\Wow6432Node\\IronPython"]

/-- Filter of `auto_detect` selecting the discovered versions that share
the host's major and minor version. -/
def minorTier (cpy_ver : HashableVersion) (vers : List HashableVersion) :
    List HashableVersion :=
  vers.filter (fun v => cpy_ver.major == v.major && cpy_ver.minor == v.minor)

/-- Filter of `auto_detect` selecting the discovered versions that share
the host's major version. -/
def majorTier (cpy_ver : HashableVersion) (vers : List HashableVersion) :
    List HashableVersion :=
  vers.filter (fun v => cpy_ver.major == v.major)

/-- Optimum-version selection of `auto_detect`: the host version itself
when present, otherwise the head of the descending-sorted minor tier,
otherwise the head of the descending-sorted major tier, otherwise
nothing. -/
def auto_detect_optimum (cpy_ver : HashableVersion)
    (ipy_vers : List HashableVersion) : Option HashableVersion :=
  if cpy_ver ∈ ipy_vers then some cpy_ver
  else
    match sortDesc (minorTier cpy_ver ipy_vers) with
    | v :: _ => some v
    | [] =>
      match sortDesc (majorTier cpy_ver ipy_vers) with
      | v :: _ => some v
      | [] => none

/-- Model of `ironpycompiler.detect.auto_detect`.  The host CPython
version (`HashableVersion()` in the source) and the detailed discovery
result (`search_ipy(detailed=True)`) are passed explicitly.  On failure it
raises `IronPythonDetectionError` with the message below; on success it
returns the optimum version (full, or reduced to `major.minor` when
`detailed` is false) together with that version's directory. -/
def auto_detect (cpy_ver : HashableVersion) (foundipys : RuntimeMapD)
    (detailed : Bool) : Except String (VersionKey × String) :=
  match auto_detect_optimum cpy_ver (foundipys.map Prod.fst) with
  | none => .error "Could not find the optimum version of IronPython."
  | some optimum_ipy_ver =>
    if detailed then
      .ok (.full optimum_ipy_ver, (foundipys.lookup optimum_ipy_ver).getD "")
    else
      .ok (.reduced optimum_ipy_ver.major_minor,
           (foundipys.lookup optimum_ipy_ver).getD "")

/-- Model of Python dictionary assignment `m[k] = v`: overwrite in place
when the key exists, append otherwise. -/
def dictSet (m : RuntimeMap) (k : VersionKey) (v : String) : RuntimeMap :=
  if (m.lookup k).isSome then
    m.map (fun kv => if kv.1 = k then (k, v) else kv)
  else m ++ [(k, v)]

/-- Python exceptions relevant to the detection module.
`detectionError` is `IronPythonDetectionError` (the spec's
`DiscoveryError`); `attributeError` is the built-in `AttributeError`. -/
inductive PyError where
  | detectionError (msg : String)
  | attributeError (msg : String)
deriving DecidableEq

/-- Environment abstracting `_winreg` for `search_ipy_reg`: whether the
module imports, which key paths open, the child keys of a base key, the
`InstallPath` value of a child, and the result of
`validate_pythonexe` on an executable path (`none` models
`IronPythonValidationError`). -/
structure RegistryEnv where
  cwd : String
  winregAvailable : Bool
  keyExists : String → Bool
  subkeys : String → List String
  installPathValue : String → String → String
  validate : String → Option HashableVersion

/-- Model of `ironpycompiler.detect.search_ipy_reg`.  Note the faithful
rendering of the `ipybasekey is None` branch: the source executes
`ipybasekey.Close()` while `ipybasekey` is `None`, which in Python raises
`AttributeError` before the `raise IronPythonDetectionError` on the next
line can run. -/
def search_ipy_reg (env : RegistryEnv) (regkeys : List String)
    (executable : String) (detailed : Bool) : Except PyError RuntimeMap :=
  if ¬ env.winregAvailable then
    .error (.detectionError
      "Cannot import a module for accessing the Windows registry.")
  else
    match regkeys.find? env.keyExists with
    | none =>
      .error (.attributeError "NoneType object has no attribute Close")
    | some ipybasekey =>
      let foundvers := env.subkeys ipybasekey
      let foundipys := foundvers.foldl (fun acc ver =>
        let ipy_dir := dirname (env.installPathValue ipybasekey ver)
        let ipy_exe := abspath env.cwd (joinPath ipy_dir executable)
        match env.validate ipy_exe with
        | none => acc
        | some ipy_ver =>
          if detailed then dictSet acc (.full ipy_ver) ipy_dir
          else dictSet acc (.reduced ipy_ver.major_minor) ipy_dir) []
      if foundipys = [] then
        .error (.detectionError "Could not find any IronPython executable.")
      else .ok foundipys

/-- Environment abstracting the PATH probe of `search_ipy_env`: the
directories of the PATH variable, the glob matches of the executable name
inside a directory, the `os.access(·, os.X_OK)` test, and
`validate_pythonexe` as in `RegistryEnv`. -/
structure PathEnv where
  cwd : String
  pathDirs : List String
  globMatches : String → String → List String
  isExecutableFile : String → Bool
  validate : String → Option HashableVersion

/-- Model of `ironpycompiler.detect.search_ipy_env`: gather the parent
directories of the executable glob matches on PATH, fail when there are
none, validate each candidate, fail when none validates, otherwise return
the version-keyed directory map. -/
def search_ipy_env (env : PathEnv) (executable : String) (detailed : Bool) :
    Except PyError RuntimeMap :=
  let ipydirpaths := env.pathDirs.foldl (fun acc path =>
    acc ++ ((env.globMatches path executable).filter
      env.isExecutableFile).map dirname) []
  if ipydirpaths = [] then
    .error (.detectionError
      ("Could not find any executable file named " ++ executable ++ "."))
  else
    let foundipys := ipydirpaths.foldl (fun acc directory =>
      let ipy_exe := abspath env.cwd (joinPath directory executable)
      match env.validate ipy_exe with
      | none => acc
      | some ipy_ver =>
        if detailed then dictSet acc (.full ipy_ver) directory
        else dictSet acc (.reduced ipy_ver.major_minor) directory) []
    if foundipys = [] then
      .error (.detectionError
        (executable ++ " exists but is not the IronPython executable."))
    else .ok foundipys

/-- Model of the `try/except IronPythonDetectionError` blocks of
`search_ipy`: a detection failure of a probe becomes the empty map, any
other exception propagates. -/
def catchDetection : Except PyError RuntimeMap → Except PyError RuntimeMap
  | .ok m => .ok m
  | .error (.detectionError _) => .ok []
  | .error e => .error e

/-- Merge loop of `search_ipy`: add each PATH-probe entry whose key is not
already present; registry entries are never overwritten. -/
def mergeEnvIntoReg (foundipys envipys : RuntimeMap) : RuntimeMap :=
  envipys.foldl
    (fun acc kv => if (acc.lookup kv.1).isSome then acc else acc ++ [kv])
    foundipys

/-- Combining layer of `ironpycompiler.detect.search_ipy`, applied to the
two probe results: swallow per-probe detection failures, merge with
registry precedence, and fail only when the merged map is empty. -/
def search_ipy_merge (regResult envResult : Except PyError RuntimeMap) :
    Except PyError RuntimeMap :=
  match catchDetection regResult with
  | .error e => .error e
  | .ok foundipys =>
    match catchDetection envResult with
    | .error e => .error e
    | .ok envipys =>
      let merged := mergeEnvIntoReg foundipys envipys
      if merged = [] then
        .error (.detectionError "Could not find any IronPython directory.")
      else .ok merged

/-- Model of `ironpycompiler.detect.search_ipy`: run both probes and
combine them with `search_ipy_merge`. -/
def search_ipy (renv : RegistryEnv) (penv : PathEnv) (regkeys : List String)
    (executable : String) (detailed : Bool) : Except PyError RuntimeMap :=
  search_ipy_merge (search_ipy_reg renv regkeys executable detailed)
    (search_ipy_env penv executable detailed)

/-- Probe results that the `try/except` blocks of `search_ipy` fully
handle: a success or a detection failure. -/
def okOrDetection : Except PyError RuntimeMap → Prop
  | .ok _ => True
  | .error (.detectionError _) => True
  | .error _ => False

/-- The map a probe result contributes to the merge (empty on failure). -/
def probeMap : Except PyError RuntimeMap → RuntimeMap
  | .ok m => m
  | .error _ => []

/-! ## Model of `ModuleCompiler` -/

/-- One entry of `modulefinder.ModuleFinder.modules`: the module name and
its `__file__` attribute (`none` for built-in modules). -/
structure FinderModule where
  name : String
  file : Option String
deriving DecidableEq

/-- Result of one `ModuleFinder.run_script` call: the unresolvable module
names (`badmodules`) and the resolved modules. -/
structure FinderResult where
  badmodules : List String
  modules : List FinderModule

/-- State of a `ModuleCompiler` instance: the configuration fixed by
`__init__` and the three accumulating classification sets. -/
structure ModuleCompilerState where
  ipy_dir : String
  pyc_abspath : String
  paths_to_scripts : List String
  builtin_modules : List String
  compilable_modules : List String
  uncompilable_modules : List String
deriving DecidableEq

/-- Model of `ModuleCompiler.__init__` (with `ipy_dir` given explicitly;
the source otherwise obtains it from `auto_detect`): absolutise the script
paths and `pyc_path`, default `pyc_abspath` to
`<ipy_dir>/Tools/Scripts/pyc.py`, and start with empty result sets. -/
def ModuleCompiler_init (cwd : String) (paths_to_scripts : List String)
    (ipy_dir : String) (pyc_path : Option String) : ModuleCompilerState :=
  { ipy_dir := ipy_dir
    pyc_abspath := match pyc_path with
      | none => joinPath (joinPath (joinPath ipy_dir "Tools") "Scripts") "pyc.py"
      | some p => abspath cwd p
    paths_to_scripts := paths_to_scripts.map (abspath cwd)
    builtin_modules := []
    compilable_modules := []
    uncompilable_modules := [] }

/-- Classification of one resolved module in `check_compilability`: no
file means built-in, a `.pyd` file means uncompilable, anything else is
compilable and stored by absolute path. -/
def classifyModule (cwd : String) (st : ModuleCompilerState)
    (m : FinderModule) : ModuleCompilerState :=
  match m.file with
  | none => { st with builtin_modules := setInsert m.name st.builtin_modules }
  | some path_to_module =>
    if (splitext path_to_module).2 = ".pyd" then
      { st with uncompilable_modules :=
          setInsert m.name st.uncompilable_modules }
    else
      { st with compilable_modules :=
          setInsert (abspath cwd path_to_module) st.compilable_modules }

/-- Per-script body of the `check_compilability` loop: accumulate the
walk's unresolvable names into `uncompilable_modules`, then classify every
resolved module. -/
def processScript (cwd : String) (finder : String → FinderResult)
    (st : ModuleCompilerState) (script : String) : ModuleCompilerState :=
  let mf := finder script
  let st1 := { st with
    uncompilable_modules := setUnion st.uncompilable_modules mf.badmodules }
  mf.modules.foldl (classifyModule cwd) st1

/-- Model of `ModuleCompiler.check_compilability`.  The import-graph walk
is the external collaborator `finder` (the `dirs_of_modules` default
selection only parameterises that collaborator and is abstracted into it).
After all scripts are processed the script paths themselves are removed
from the compilable set. -/
def check_compilability (cwd : String) (finder : String → FinderResult)
    (st : ModuleCompilerState) : ModuleCompilerState :=
  let st1 := st.paths_to_scripts.foldl (processScript cwd finder) st
  { st1 with compilable_modules :=
      setDiff st1.compilable_modules st.paths_to_scripts }

/-- Componentwise growth of the accumulating sets of a
`ModuleCompilerState`, with the configuration preserved. -/
def stateLe (s t : ModuleCompilerState) : Prop :=
  s.paths_to_scripts = t.paths_to_scripts
  ∧ s.builtin_modules ⊆ t.builtin_modules
  ∧ s.compilable_modules ⊆ t.compilable_modules
  ∧ s.uncompilable_modules ⊆ t.uncompilable_modules

/-- Result of `ModuleCompiler.create_asm` up to the `call_pyc` call: the
state after the (possibly triggered) dependency analysis, the output
assembly path, the compiler argument list written to the response file,
and the working directory passed to `call_pyc`. -/
structure CreateAsmResult where
  state : ModuleCompilerState
  output_asm : String
  pyc_args : List String
  call_cwd : String

/-- Model of `ModuleCompiler.create_asm`: analyse dependencies when
`compilable_modules` is empty, derive the output path from the first
script when `out` is not given, build the pyc.py argument list in source
order (`/out`, then for exe/winexe `/target`, `/main`, optional
`/platform`, optional `/embed`, optional `/standalone`, then `/mta` for
winexe, then the scripts, then the compilable modules in the set's
iteration order). -/
def create_asm (cwd : String) (finder : String → FinderResult)
    (st : ModuleCompilerState) (out : Option String) (target_asm : String)
    (target_platform : Option String) (embed standalone mta : Bool) :
    CreateAsmResult :=
  let st := if st.compilable_modules = [] then
      check_compilability cwd finder st
    else st
  let output_asm := match out with
    | none =>
      let output_basename := (splitext (basename
        (st.paths_to_scripts.headD ""))).1
      let output_basename := if target_asm = "exe" ∨ target_asm = "winexe"
        then output_basename ++ ".exe" else output_basename ++ ".dll"
      joinPath cwd output_basename
    | some o => abspath cwd o
  let pyc_args := ["/out:" ++ (splitext output_asm).1]
  let pyc_args := if target_asm = "exe" ∨ target_asm = "winexe" then
      pyc_args ++ ["/target:" ++ target_asm,
                   "/main:" ++ st.paths_to_scripts.headD ""]
        ++ (match target_platform with
            | some p => if p = "x86" ∨ p = "x64" then ["/platform:" ++ p] else []
            | none => [])
        ++ (if embed then ["/embed"] else [])
        ++ (if standalone then ["/standalone"] else [])
    else pyc_args
  let pyc_args := if target_asm = "winexe" ∧ mta then pyc_args ++ ["/mta"]
    else pyc_args
  let pyc_args := pyc_args ++ st.paths_to_scripts ++ st.compilable_modules
  { state := st
    output_asm := output_asm
    pyc_args := pyc_args
    call_cwd := dirname output_asm }

/-! ## Helper lemmas -/

theorem isPrefixOf_append_self (l t : List Char) :
    l.isPrefixOf (l ++ t) = true := by
  induction l with
  | nil => simp [List.isPrefixOf]
  | cons a as ih => simp [List.isPrefixOf, ih]

theorem listContains_append_middle (xs sub zs : List Char) :
    listContains (xs ++ sub ++ zs) sub = true := by
  unfold listContains
  rw [List.any_eq_true]
  refine ⟨sub ++ zs, ?_, isPrefixOf_append_self sub zs⟩
  rw [List.mem_tails, List.append_assoc]
  exact List.suffix_append xs (sub ++ zs)

theorem strContainsB_of_middle (a sub c : String) :
    strContainsB (a ++ sub ++ c) sub = true := by
  unfold strContainsB
  rw [String.data_append, String.data_append]
  exact listContains_append_middle a.data sub.data c.data

/-! ## Claims C1 and C2 -/

/-- Claim C1: the specification demands that, when deletion of the response
file is requested, `call_pyc` deletes it only after the compiler's exit
code has been inspected.  The code does the opposite: evaluating the model
at a failing compilation (`delete_resp = true`, exit code 1) shows the
`removeRespFile` step strictly before the `inspectExitCode` step in the
trace, so the response file is already gone when the
`ModuleCompilationError` is raised. -/
theorem call_pyc_deletes_before_exit_check :
    ((call_pyc ["/out:m", "m.py"] true "ipy.exe" "compile failed" 1).trace.indexOf
        PycEvent.removeRespFile <
      (call_pyc ["/out:m", "m.py"] true "ipy.exe" "compile failed" 1).trace.indexOf
        (PycEvent.inspectExitCode 1))
    ∧ (call_pyc ["/out:m", "m.py"] true "ipy.exe" "compile failed" 1).resp_file_deleted = true
    ∧ (call_pyc ["/out:m", "m.py"] true "ipy.exe" "compile failed" 1).error =
        some "ipy.exe returned 1 exit status." := by
  decide

/-- Claim C2, counterexample: for the invocation with executable
`"ipy.exe"`, captured combined output `"mock compiler output"` and exit
code 1, `call_pyc` raises a `ModuleCompilationError` whose message is
`"ipy.exe returned 1 exit status."`, and that message does not contain the
captured output, contradicting the claim that the message includes the
captured combined output. -/
theorem call_pyc_msg_omits_output :
    (call_pyc ["/out:m"] true "ipy.exe" "mock compiler output" 1).error =
      some "ipy.exe returned 1 exit status."
    ∧ strContainsB "ipy.exe returned 1 exit status." "mock compiler output" = false := by
  decide

/-- Claim C2, amended: for every compiler invocation with a non-zero exit
code, `call_pyc` raises a `ModuleCompilationError` whose message includes
the executable name and the exit code; the captured combined output is not
part of the message but is stored in the `pyc_stdout` attribute. -/
theorem call_pyc_error_carries_exe_and_code (args : List String)
    (delete_resp : Bool) (executable compilerOutput : String) (code : Int)
    (h : code ≠ 0) :
    (call_pyc args delete_resp executable compilerOutput code).error =
      some (call_pyc_error_msg executable code)
    ∧ strContainsB (call_pyc_error_msg executable code) executable = true
    ∧ strContainsB (call_pyc_error_msg executable code) (toString code) = true
    ∧ (call_pyc args delete_resp executable compilerOutput code).pyc_stdout =
        compilerOutput := by
  refine ⟨?_, ?_, ?_, ?_⟩
  · simp only [call_pyc, if_pos h]
  · have := strContainsB_of_middle "" executable
      (" returned " ++ toString code ++ " exit status.")
    simpa [call_pyc_error_msg, String.append_assoc] using this
  · have := strContainsB_of_middle (executable ++ " returned ")
      (toString code) " exit status."
    simpa [call_pyc_error_msg, String.append_assoc] using this
  · simp only [call_pyc, if_pos h]

/-- Witness for the amended claim C2 at a concrete failing invocation. -/
theorem call_pyc_error_carries_exe_and_code_witness :
    (call_pyc ["/out:m"] true "ipy.exe" "mock compiler output" 1).error =
      some (call_pyc_error_msg "ipy.exe" 1)
    ∧ strContainsB (call_pyc_error_msg "ipy.exe" 1) "ipy.exe" = true
    ∧ strContainsB (call_pyc_error_msg "ipy.exe" 1) (toString (1 : Int)) = true
    ∧ (call_pyc ["/out:m"] true "ipy.exe" "mock compiler output" 1).pyc_stdout =
        "mock compiler output" :=
  call_pyc_error_carries_exe_and_code ["/out:m"] true "ipy.exe"
    "mock compiler output" 1 (by decide)

theorem verCmp_neg_one_iff (a b : HashableVersion) :
    verCmp a b = -1 ↔ keyLt a b := by
  obtain ⟨ma, mia, pa, pra⟩ := a
  obtain ⟨mb, mib, pb, prb⟩ := b
  rcases pra with _ | ⟨pl, pn⟩ <;> rcases prb with _ | ⟨ql, qn⟩ <;>
    simp only [verCmp, verTuple, tupleLtB, preLtB, keyLt, preRank, preL, preN,
      ne_eq, Prod.mk.injEq, decide_eq_true_eq, Bool.or_eq_true,
      Bool.and_eq_true] <;>
    split_ifs <;> simp_all <;> omega

theorem keyLt_irrefl (a : HashableVersion) : ¬ keyLt a a := by
  unfold keyLt; omega

theorem keyLt_trans {a b c : HashableVersion}
    (h1 : keyLt a b) (h2 : keyLt b c) : keyLt a c := by
  unfold keyLt at *; omega

theorem verLtB_eq_true_iff (a b : HashableVersion) :
    verLtB a b = true ↔ keyLt a b := by
  simp [verLtB, verCmp_neg_one_iff]

theorem insertDesc_ne_nil (v : HashableVersion) (l : List HashableVersion) :
    insertDesc v l ≠ [] := by
  cases l with
  | nil => simp [insertDesc]
  | cons w ws =>
    simp only [insertDesc]
    split <;> simp

theorem sortDesc_cons (v : HashableVersion) (rest : List HashableVersion) :
    sortDesc (v :: rest) = insertDesc v (sortDesc rest) := rfl

theorem sortDesc_eq_nil_iff (l : List HashableVersion) :
    sortDesc l = [] ↔ l = [] := by
  induction l with
  | nil => simp [sortDesc]
  | cons v rest ih =>
    rw [sortDesc_cons]
    simp [insertDesc_ne_nil v (sortDesc rest)]

theorem mem_insertDesc (x v : HashableVersion) (l : List HashableVersion) :
    x ∈ insertDesc v l ↔ x = v ∨ x ∈ l := by
  induction l with
  | nil => simp [insertDesc]
  | cons w ws ih =>
    simp only [insertDesc]
    split
    · simp
    · simp [ih]; tauto

theorem sortDesc_head_max (l : List HashableVersion) (h : HashableVersion)
    (t : List HashableVersion) (hst : sortDesc l = h :: t) :
    h ∈ l ∧ ∀ x ∈ l, verCmp h x ≠ -1 := by
  induction l generalizing h t with
  | nil => simp [sortDesc] at hst
  | cons v rest ih =>
    rw [sortDesc_cons] at hst
    cases hrest : sortDesc rest with
    | nil =>
      rw [hrest] at hst
      simp only [insertDesc] at hst
      obtain ⟨hh, -⟩ := List.cons.inj hst
      have hre : rest = [] := (sortDesc_eq_nil_iff rest).mp hrest
      subst hh hre
      refine ⟨List.mem_cons_self _ _, ?_⟩
      intro x hx
      simp only [List.mem_cons, List.not_mem_nil, or_false] at hx
      subst hx
      intro hc
      exact keyLt_irrefl _ ((verCmp_neg_one_iff _ _).mp hc)
    | cons w ws =>
      rw [hrest] at hst
      obtain ⟨hwmem, hwmax⟩ := ih w ws hrest
      by_cases hb : verLtB w v = true
      · rw [show insertDesc v (w :: ws)
              = if verLtB w v then v :: w :: ws else w :: insertDesc v ws
            from rfl, if_pos hb] at hst
        obtain ⟨hh, -⟩ := List.cons.inj hst
        subst hh
        refine ⟨List.mem_cons_self _ _, ?_⟩
        intro x hx
        rcases List.mem_cons.mp hx with hxv | hxr
        · subst hxv
          intro hc
          exact keyLt_irrefl _ ((verCmp_neg_one_iff _ _).mp hc)
        · intro hc
          have h1 : keyLt v x := (verCmp_neg_one_iff _ _).mp hc
          have h2 : keyLt w v := (verLtB_eq_true_iff _ _).mp hb
          exact hwmax x hxr ((verCmp_neg_one_iff _ _).mpr (keyLt_trans h2 h1))
      · rw [show insertDesc v (w :: ws)
              = if verLtB w v then v :: w :: ws else w :: insertDesc v ws
            from rfl, if_neg hb] at hst
        obtain ⟨hh, -⟩ := List.cons.inj hst
        subst hh
        refine ⟨List.mem_cons_of_mem _ hwmem, ?_⟩
        intro x hx
        rcases List.mem_cons.mp hx with hxv | hxr
        · subst hxv
          intro hc
          exact hb ((verLtB_eq_true_iff _ _).mpr ((verCmp_neg_one_iff _ _).mp hc))
        · exact hwmax x hxr

/-! ## Claims C3, C9 and C8 -/

/-- Claim C3: `auto_detect` follows the strict tier priority.  If the host
version is a key of the discovered map it is selected together with its
directory; otherwise, if versions sharing the host's major and minor exist,
the selected version belongs to that tier and no tier member exceeds it;
otherwise likewise for the tier sharing only the major version; and when
every tier is empty it fails with the `IronPythonDetectionError` message.
The three concrete scenarios of the specification for host 2.7.0 are
checked explicitly. -/
theorem auto_detect_tier_priority :
    (∀ (cpy : HashableVersion) (m : RuntimeMapD),
      cpy ∈ m.map Prod.fst →
      auto_detect cpy m true = .ok (.full cpy, (m.lookup cpy).getD ""))
    ∧ (∀ (cpy : HashableVersion) (m : RuntimeMapD) (v : HashableVersion) (d : String),
      cpy ∉ m.map Prod.fst →
      minorTier cpy (m.map Prod.fst) ≠ [] →
      auto_detect cpy m true = .ok (.full v, d) →
        v ∈ minorTier cpy (m.map Prod.fst)
        ∧ (∀ x ∈ minorTier cpy (m.map Prod.fst), verCmp v x ≠ -1)
        ∧ d = (m.lookup v).getD "")
    ∧ (∀ (cpy : HashableVersion) (m : RuntimeMapD) (v : HashableVersion) (d : String),
      cpy ∉ m.map Prod.fst →
      minorTier cpy (m.map Prod.fst) = [] →
      majorTier cpy (m.map Prod.fst) ≠ [] →
      auto_detect cpy m true = .ok (.full v, d) →
        v ∈ majorTier cpy (m.map Prod.fst)
        ∧ (∀ x ∈ majorTier cpy (m.map Prod.fst), verCmp v x ≠ -1)
        ∧ d = (m.lookup v).getD "")
    ∧ (∀ (cpy : HashableVersion) (m : RuntimeMapD),
      cpy ∉ m.map Prod.fst →
      minorTier cpy (m.map Prod.fst) = [] →
      majorTier cpy (m.map Prod.fst) = [] →
      auto_detect cpy m true =
        .error "Could not find the optimum version of IronPython.")
    ∧ auto_detect ⟨2, 7, 0, none⟩
        [(⟨2, 7, 3, none⟩, "/ipy273"), (⟨2, 6, 9, none⟩, "/ipy269"),
         (⟨3, 1, 0, none⟩, "/ipy310")] true
        = .ok (.full ⟨2, 7, 3, none⟩, "/ipy273")
    ∧ auto_detect ⟨2, 7, 0, none⟩
        [(⟨2, 6, 9, none⟩, "/ipy269"), (⟨3, 1, 0, none⟩, "/ipy310")] true
        = .ok (.full ⟨2, 6, 9, none⟩, "/ipy269")
    ∧ auto_detect ⟨2, 7, 0, none⟩ [(⟨3, 1, 0, none⟩, "/ipy310")] true
        = .error "Could not find the optimum version of IronPython." := by
  refine ⟨?_, ?_, ?_, ?_, by rfl, by rfl, by rfl⟩
  · intro cpy m hm
    simp [auto_detect, auto_detect_optimum, if_pos hm]
  · intro cpy m v d hnm hne hok
    cases hs : sortDesc (minorTier cpy (m.map Prod.fst)) with
    | nil => exact absurd ((sortDesc_eq_nil_iff _).mp hs) hne
    | cons h0 t0 =>
      have hmax := sortDesc_head_max _ _ _ hs
      have hcomp : auto_detect cpy m true
          = .ok (.full h0, (m.lookup h0).getD "") := by
        simp [auto_detect, auto_detect_optimum, if_neg hnm, hs]
      rw [hcomp] at hok
      simp only [Except.ok.injEq, Prod.mk.injEq, VersionKey.full.injEq] at hok
      obtain ⟨hv, hd⟩ := hok
      subst hv
      exact ⟨hmax.1, hmax.2, hd.symm⟩
  · intro cpy m v d hnm hmt hne hok
    have hs1 : sortDesc (minorTier cpy (m.map Prod.fst)) = [] := by
      rw [hmt]; rfl
    cases hs : sortDesc (majorTier cpy (m.map Prod.fst)) with
    | nil => exact absurd ((sortDesc_eq_nil_iff _).mp hs) hne
    | cons h0 t0 =>
      have hmax := sortDesc_head_max _ _ _ hs
      have hcomp : auto_detect cpy m true
          = .ok (.full h0, (m.lookup h0).getD "") := by
        simp [auto_detect, auto_detect_optimum, if_neg hnm, hs1, hs]
      rw [hcomp] at hok
      simp only [Except.ok.injEq, Prod.mk.injEq, VersionKey.full.injEq] at hok
      obtain ⟨hv, hd⟩ := hok
      subst hv
      exact ⟨hmax.1, hmax.2, hd.symm⟩
  · intro cpy m hnm hmt hma
    have hs1 : sortDesc (minorTier cpy (m.map Prod.fst)) = [] := by
      rw [hmt]; rfl
    have hs2 : sortDesc (majorTier cpy (m.map Prod.fst)) = [] := by
      rw [hma]; rfl
    simp [auto_detect, auto_detect_optimum, if_neg hnm, hs1, hs2]

/-- Witness for claim C3: the minor-tier conjunct applied to the concrete
host 2.7.0 and runtime map with versions 2.7.3, 2.6.9 and 3.1.0, every
hypothesis discharged by evaluation. -/
theorem auto_detect_tier_priority_witness :
    (⟨2, 7, 3, none⟩ : HashableVersion) ∈
      minorTier ⟨2, 7, 0, none⟩
        (([(⟨2, 7, 3, none⟩, "/ipy273"), (⟨2, 6, 9, none⟩, "/ipy269"),
           (⟨3, 1, 0, none⟩, "/ipy310")] : RuntimeMapD).map Prod.fst)
    ∧ (∀ x ∈ minorTier ⟨2, 7, 0, none⟩
        (([(⟨2, 7, 3, none⟩, "/ipy273"), (⟨2, 6, 9, none⟩, "/ipy269"),
           (⟨3, 1, 0, none⟩, "/ipy310")] : RuntimeMapD).map Prod.fst),
        verCmp ⟨2, 7, 3, none⟩ x ≠ -1)
    ∧ "/ipy273" = ((([(⟨2, 7, 3, none⟩, "/ipy273"), (⟨2, 6, 9, none⟩, "/ipy269"),
           (⟨3, 1, 0, none⟩, "/ipy310")] : RuntimeMapD).lookup
           ⟨2, 7, 3, none⟩).getD "") :=
  auto_detect_tier_priority.2.1 ⟨2, 7, 0, none⟩
    [(⟨2, 7, 3, none⟩, "/ipy273"), (⟨2, 6, 9, none⟩, "/ipy269"),
     (⟨3, 1, 0, none⟩, "/ipy310")] ⟨2, 7, 3, none⟩ "/ipy273"
    (by decide) (by decide) (by rfl)

/-- Claim C9: every successfully parsed version supports reduction to the
two-part key (checked on the parse of "2.7.3", whose reduced key is
"2.7"), and `auto_detect` with `detailed = false` returns the reduced
`major.minor` key of exactly the optimum version that detailed selection
returns, paired with the same directory. -/
theorem major_minor_reduced_key :
    (∀ (cpy : HashableVersion) (m : RuntimeMapD) (k : VersionKey) (d : String),
      auto_detect cpy m false = .ok (k, d) →
      ∃ hv : HashableVersion, k = VersionKey.reduced hv.major_minor
        ∧ auto_detect cpy m true = .ok (.full hv, d))
    ∧ parseVersion "2.7.3" = some ⟨2, 7, 3, none⟩
    ∧ HashableVersion.major_minor ⟨2, 7, 3, none⟩ = "2.7"
    ∧ parseVersion "2.7.3b2" = some ⟨2, 7, 3, some ('b'.toNat, 2)⟩
    ∧ HashableVersion.major_minor ⟨2, 7, 3, some ('b'.toNat, 2)⟩ = "2.7" := by
  refine ⟨?_, by decide, by decide, by decide, by decide⟩
  intro cpy m k d h
  cases ho : auto_detect_optimum cpy (m.map Prod.fst) with
  | none => simp [auto_detect, ho] at h
  | some v =>
    simp only [auto_detect, ho, if_neg, Bool.false_eq_true, if_false,
      Except.ok.injEq, Prod.mk.injEq] at h
    obtain ⟨hk, hd⟩ := h
    exact ⟨v, hk.symm, by simp [auto_detect, ho, hd]⟩

/-- Witness for claim C9 at a concrete discovery map: non-detailed
selection over the single runtime 2.7.3 for host 2.7.0 yields the reduced
key "2.7" and the matching detailed result. -/
theorem major_minor_reduced_key_witness :
    ∃ hv : HashableVersion,
      VersionKey.reduced "2.7" = VersionKey.reduced hv.major_minor
      ∧ auto_detect ⟨2, 7, 0, none⟩ [(⟨2, 7, 3, none⟩, "/ipy273")] true
          = .ok (.full hv, "/ipy273") :=
  major_minor_reduced_key.1 ⟨2, 7, 0, none⟩ [(⟨2, 7, 3, none⟩, "/ipy273")]
    (.reduced "2.7") "/ipy273" (by rfl)

/-- Claim C8: for every invocation whose executable can be started,
`execute_ipy` returns the pair of the combined stdout/stderr text and the
integer exit code (whatever its value, so a non-zero code is a normal
return); it returns a `LaunchError` exactly when the executable cannot be
started; and an unspecified working directory defaults to the caller's
current directory. -/
theorem execute_ipy_contract (env : ProcessEnv) (path_to_exe : String)
    (arguments : List String) (cwd : Option String) :
    (env.canStart path_to_exe = true →
      execute_ipy env path_to_exe arguments cwd =
        .ok (env.stdoutOf
              { args := basename path_to_exe :: arguments
                executable := path_to_exe
                mergeStderrToStdout := true
                cwd := match cwd with
                       | some c => c
                       | none => env.getcwd }
             ++ env.stderrOf
              { args := basename path_to_exe :: arguments
                executable := path_to_exe
                mergeStderrToStdout := true
                cwd := match cwd with
                       | some c => c
                       | none => env.getcwd },
             env.returncodeOf
              { args := basename path_to_exe :: arguments
                executable := path_to_exe
                mergeStderrToStdout := true
                cwd := match cwd with
                       | some c => c
                       | none => env.getcwd }))
    ∧ ((∃ e, execute_ipy env path_to_exe arguments cwd = .error e)
        ↔ env.canStart path_to_exe = false)
    ∧ execute_ipy env path_to_exe arguments none =
        execute_ipy env path_to_exe arguments (some env.getcwd) := by
  refine ⟨?_, ?_, rfl⟩
  · intro hc
    simp [execute_ipy, popen_communicate, hc]
  · constructor
    · rintro ⟨e, he⟩
      by_cases hc : env.canStart path_to_exe = true
      · simp [execute_ipy, popen_communicate, hc] at he
      · simpa using hc
    · intro hc
      refine ⟨"OSError: cannot start " ++ path_to_exe, ?_⟩
      simp [execute_ipy, popen_communicate, hc]

/-- Witness for claim C8 at a concrete process environment in which the
executable starts, writes "out" and "err", and exits with code 7. -/
theorem execute_ipy_contract_witness :
    execute_ipy
      { getcwd := "/w", canStart := fun _ => true, stdoutOf := fun _ => "out",
        stderrOf := fun _ => "err", returncodeOf := fun _ => 7 }
      "/ipy/ipy.exe" ["-c", "pass"] none = .ok ("out" ++ "err", 7) :=
  (execute_ipy_contract
      { getcwd := "/w", canStart := fun _ => true, stdoutOf := fun _ => "out",
        stderrOf := fun _ => "err", returncodeOf := fun _ => 7 }
      "/ipy/ipy.exe" ["-c", "pass"] none).1 rfl

theorem mem_setInsert (x y : String) (l : List String) :
    x ∈ setInsert y l ↔ x = y ∨ x ∈ l := by
  induction l with
  | nil => simp [setInsert]
  | cons z zs ih =>
    simp only [setInsert]
    split
    · simp [List.mem_cons]
    · split
      · next h =>
        subst h
        simp [List.mem_cons]
      · simp [List.mem_cons, ih]
        tauto

theorem mem_setInsert_self (x : String) (l : List String) :
    x ∈ setInsert x l :=
  (mem_setInsert x x l).mpr (Or.inl rfl)

theorem subset_setInsert (y : String) (l : List String) :
    l ⊆ setInsert y l :=
  fun _ hx => (mem_setInsert _ y l).mpr (Or.inr hx)

theorem mem_setUnion (x : String) (s xs : List String) :
    x ∈ setUnion s xs ↔ x ∈ s ∨ x ∈ xs := by
  induction xs generalizing s with
  | nil => simp [setUnion]
  | cons a as ih =>
    have hstep : setUnion s (a :: as) = setUnion (setInsert a s) as := rfl
    rw [hstep, ih, mem_setInsert]
    simp [List.mem_cons]
    tauto

theorem mem_setDiff (x : String) (s xs : List String) :
    x ∈ setDiff s xs ↔ x ∈ s ∧ x ∉ xs := by
  simp [setDiff, List.mem_filter]

theorem stateLe_refl (s : ModuleCompilerState) : stateLe s s :=
  ⟨rfl, fun _ h => h, fun _ h => h, fun _ h => h⟩

theorem stateLe_trans {a b c : ModuleCompilerState}
    (h : stateLe a b) (g : stateLe b c) : stateLe a c :=
  ⟨h.1.trans g.1, fun _ hx => g.2.1 (h.2.1 hx),
   fun _ hx => g.2.2.1 (h.2.2.1 hx), fun _ hx => g.2.2.2 (h.2.2.2 hx)⟩

theorem classifyModule_le (cwd : String) (st : ModuleCompilerState)
    (m : FinderModule) : stateLe st (classifyModule cwd st m) := by
  cases hf : m.file with
  | none =>
    simp only [classifyModule, hf]
    exact ⟨rfl, subset_setInsert _ _, fun _ h => h, fun _ h => h⟩
  | some p =>
    simp only [classifyModule, hf]
    by_cases hext : (splitext p).2 = ".pyd"
    · rw [if_pos hext]
      exact ⟨rfl, fun _ h => h, fun _ h => h, subset_setInsert _ _⟩
    · rw [if_neg hext]
      exact ⟨rfl, fun _ h => h, subset_setInsert _ _, fun _ h => h⟩

theorem foldl_classify_le (cwd : String) (ms : List FinderModule) :
    ∀ st : ModuleCompilerState,
      stateLe st (ms.foldl (classifyModule cwd) st) := by
  induction ms with
  | nil => exact fun st => stateLe_refl st
  | cons m ms ih =>
    intro st
    exact stateLe_trans (classifyModule_le cwd st m) (ih _)

theorem processScript_le (cwd : String) (finder : String → FinderResult)
    (st : ModuleCompilerState) (script : String) :
    stateLe st (processScript cwd finder st script) := by
  unfold processScript
  refine stateLe_trans ?_ (foldl_classify_le cwd _ _)
  exact ⟨rfl, fun _ h => h, fun _ h => h,
    fun x hx => (mem_setUnion x _ _).mpr (Or.inl hx)⟩

theorem foldl_process_le (cwd : String) (finder : String → FinderResult)
    (scripts : List String) :
    ∀ st : ModuleCompilerState,
      stateLe st (scripts.foldl (processScript cwd finder) st) := by
  induction scripts with
  | nil => exact fun st => stateLe_refl st
  | cons s ss ih =>
    intro st
    exact stateLe_trans (processScript_le cwd finder st s) (ih _)

theorem classify_fold_mem (cwd : String) (m : FinderModule)
    (ms : List FinderModule) :
    ∀ st : ModuleCompilerState, m ∈ ms →
    (m.file = none →
      m.name ∈ (ms.foldl (classifyModule cwd) st).builtin_modules)
    ∧ (∀ p, m.file = some p → (splitext p).2 = ".pyd" →
      m.name ∈ (ms.foldl (classifyModule cwd) st).uncompilable_modules)
    ∧ (∀ p, m.file = some p → (splitext p).2 ≠ ".pyd" →
      abspath cwd p ∈ (ms.foldl (classifyModule cwd) st).compilable_modules) := by
  induction ms with
  | nil => intro st hm; cases hm
  | cons m0 ms ih =>
    intro st hm
    rcases List.mem_cons.mp hm with h0 | htail
    · subst h0
      have hle := foldl_classify_le cwd ms (classifyModule cwd st m)
      refine ⟨?_, ?_, ?_⟩
      · intro hf
        apply hle.2.1
        simp only [classifyModule, hf]
        exact mem_setInsert_self _ _
      · intro p hf hext
        apply hle.2.2.2
        simp only [classifyModule, hf, if_pos hext]
        exact mem_setInsert_self _ _
      · intro p hf hext
        apply hle.2.2.1
        simp only [classifyModule, hf, if_neg hext]
        exact mem_setInsert_self _ _
    · exact ih (classifyModule cwd st m0) htail

theorem process_fold_mem (cwd : String) (finder : String → FinderResult)
    (script : String) (scripts : List String) :
    ∀ st : ModuleCompilerState, script ∈ scripts →
    (∀ nm ∈ (finder script).badmodules,
      nm ∈ (scripts.foldl (processScript cwd finder) st).uncompilable_modules)
    ∧ (∀ m ∈ (finder script).modules,
        (m.file = none →
          m.name ∈ (scripts.foldl (processScript cwd finder) st).builtin_modules)
        ∧ (∀ p, m.file = some p → (splitext p).2 = ".pyd" →
          m.name ∈ (scripts.foldl (processScript cwd finder) st).uncompilable_modules)
        ∧ (∀ p, m.file = some p → (splitext p).2 ≠ ".pyd" →
          abspath cwd p ∈
            (scripts.foldl (processScript cwd finder) st).compilable_modules)) := by
  induction scripts with
  | nil => intro st hm; cases hm
  | cons s0 ss ih =>
    intro st hm
    rcases List.mem_cons.mp hm with h0 | htail
    · subst h0
      have hle := foldl_process_le cwd finder ss (processScript cwd finder st script)
      constructor
      · intro nm hnm
        apply hle.2.2.2
        unfold processScript
        apply (foldl_classify_le cwd _ _).2.2.2
        exact (mem_setUnion nm _ _).mpr (Or.inr hnm)
      · intro m hm2
        have hcf := classify_fold_mem cwd m (finder script).modules
          { st with uncompilable_modules :=
              setUnion st.uncompilable_modules (finder script).badmodules } hm2
        refine ⟨?_, ?_, ?_⟩
        · intro hf
          exact hle.2.1 (hcf.1 hf)
        · intro p hf hext
          exact hle.2.2.2 (hcf.2.1 p hf hext)
        · intro p hf hext
          exact hle.2.2.1 (hcf.2.2 p hf hext)
    · exact ih (processScript cwd finder st s0) htail

/-! ## Claims C4 and C10 -/

/-- Claim C4: `check_compilability` adds every unresolvable module name to
the uncompilable set; classifies every resolved module without a file as
built-in, every resolved module with a `.pyd` file as uncompilable, and
every other resolved module as compilable under its absolute path; and
removes the input-script paths from the compilable set, so a script never
appears in its own compilable-dependency set. -/
theorem check_compilability_classification (cwd : String)
    (finder : String → FinderResult) (st : ModuleCompilerState) :
    (∀ script ∈ st.paths_to_scripts,
      (∀ nm ∈ (finder script).badmodules,
        nm ∈ (check_compilability cwd finder st).uncompilable_modules)
      ∧ (∀ m ∈ (finder script).modules,
          (m.file = none →
            m.name ∈ (check_compilability cwd finder st).builtin_modules)
          ∧ (∀ p, m.file = some p → (splitext p).2 = ".pyd" →
            m.name ∈ (check_compilability cwd finder st).uncompilable_modules)
          ∧ (∀ p, m.file = some p → (splitext p).2 ≠ ".pyd" →
            abspath cwd p ∉ st.paths_to_scripts →
            abspath cwd p ∈
              (check_compilability cwd finder st).compilable_modules)))
    ∧ (∀ s ∈ st.paths_to_scripts,
        s ∉ (check_compilability cwd finder st).compilable_modules) := by
  constructor
  · intro script hs
    have H := process_fold_mem cwd finder script st.paths_to_scripts st hs
    refine ⟨fun nm hnm => H.1 nm hnm, fun m hm => ⟨?_, ?_, ?_⟩⟩
    · intro hf
      exact (H.2 m hm).1 hf
    · intro p hf hext
      exact (H.2 m hm).2.1 p hf hext
    · intro p hf hext hnot
      exact (mem_setDiff _ _ _).mpr ⟨(H.2 m hm).2.2 p hf hext, hnot⟩
  · intro s hs hmem
    exact ((mem_setDiff _ _ _).mp hmem).2 hs

/-- Witness for claim C4: for the script `/w/main.ipy` whose walk reports
one unresolvable name, one built-in module, one native `.pyd` module and
one source module, the source module's absolute path lands in the
compilable set of the analysis result. -/
theorem check_compilability_classification_witness :
    abspath "/w" "/lib/helper.py" ∈
      (check_compilability "/w"
        (fun _ => ⟨["missing"],
          [⟨"os", none⟩, ⟨"fast", some "/lib/fast.pyd"⟩,
           ⟨"helper", some "/lib/helper.py"⟩]⟩)
        (ModuleCompiler_init "/w" ["main.ipy"] "/ipy" none)).compilable_modules :=
  (((check_compilability_classification "/w"
      (fun _ => ⟨["missing"],
        [⟨"os", none⟩, ⟨"fast", some "/lib/fast.pyd"⟩,
         ⟨"helper", some "/lib/helper.py"⟩]⟩)
      (ModuleCompiler_init "/w" ["main.ipy"] "/ipy" none)).1
    "/w/main.ipy" (by decide)).2
    ⟨"helper", some "/lib/helper.py"⟩ (by decide)).2.2
    "/lib/helper.py" rfl (by decide) (by decide)

/-- Claim C10: across one `check_compilability` call the three result sets
only grow — the built-in and uncompilable sets are supersets of their old
values, the compilable set is a superset of the old value minus the
input-script paths — while `paths_to_scripts` is unchanged; and
`create_asm` leaves the state untouched (no fresh analysis) whenever
`compilable_modules` is non-empty. -/
theorem compiler_state_accumulation (cwd : String)
    (finder : String → FinderResult) (st : ModuleCompilerState)
    (out : Option String) (target_asm : String)
    (target_platform : Option String) (embed standalone mta : Bool) :
    (st.builtin_modules ⊆ (check_compilability cwd finder st).builtin_modules
    ∧ st.uncompilable_modules ⊆
        (check_compilability cwd finder st).uncompilable_modules
    ∧ setDiff st.compilable_modules st.paths_to_scripts ⊆
        (check_compilability cwd finder st).compilable_modules
    ∧ (check_compilability cwd finder st).paths_to_scripts =
        st.paths_to_scripts)
    ∧ (st.compilable_modules ≠ [] →
        (create_asm cwd finder st out target_asm target_platform
          embed standalone mta).state = st) := by
  have hle := foldl_process_le cwd finder st.paths_to_scripts st
  refine ⟨⟨hle.2.1, hle.2.2.2, ?_, hle.1.symm⟩, ?_⟩
  · intro x hx
    have hx' := (mem_setDiff x _ _).mp hx
    exact (mem_setDiff x _ _).mpr ⟨hle.2.2.1 hx'.1, hx'.2⟩
  · intro hne
    simp [create_asm, hne]

/-- Witness for claim C10 at a state with a non-empty compilable set:
`create_asm` performs no fresh analysis and returns the state unchanged. -/
theorem compiler_state_accumulation_witness :
    (create_asm "/w" (fun _ => ⟨[], []⟩)
      { ipy_dir := "/ipy", pyc_abspath := "/ipy/Tools/Scripts/pyc.py",
        paths_to_scripts := ["/w/a.py"], builtin_modules := [],
        compilable_modules := ["/lib/m.py"], uncompilable_modules := [] }
      none "dll" none true true false).state =
    { ipy_dir := "/ipy", pyc_abspath := "/ipy/Tools/Scripts/pyc.py",
      paths_to_scripts := ["/w/a.py"], builtin_modules := [],
      compilable_modules := ["/lib/m.py"], uncompilable_modules := [] } :=
  (compiler_state_accumulation "/w" (fun _ => ⟨[], []⟩)
    { ipy_dir := "/ipy", pyc_abspath := "/ipy/Tools/Scripts/pyc.py",
      paths_to_scripts := ["/w/a.py"], builtin_modules := [],
      compilable_modules := ["/lib/m.py"], uncompilable_modules := [] }
    none "dll" none true true false).2 (by decide)

/-! ## Claims C5 and C6 -/

theorem lookup_append (k : VersionKey) (l1 l2 : RuntimeMap) :
    List.lookup k (l1 ++ l2) = (List.lookup k l1).or (List.lookup k l2) := by
  induction l1 with
  | nil => simp [List.lookup]
  | cons h t ih =>
    simp [List.lookup]
    split <;> simp [ih]

theorem lookup_mergeEnvIntoReg (k : VersionKey) (em : RuntimeMap) :
    ∀ acc : RuntimeMap,
      (mergeEnvIntoReg acc em).lookup k =
        (acc.lookup k).or (List.lookup k em) := by
  induction em with
  | nil => intro acc; simp [mergeEnvIntoReg, List.lookup]
  | cons kv rest ih =>
    intro acc
    obtain ⟨k1, v1⟩ := kv
    have hstep : mergeEnvIntoReg acc ((k1, v1) :: rest)
        = mergeEnvIntoReg
            (if (acc.lookup k1).isSome then acc else acc ++ [(k1, v1)])
            rest := rfl
    rw [hstep, ih]
    by_cases hk : (acc.lookup k1).isSome
    · rw [if_pos hk]
      by_cases hkk : k = k1
      · subst hkk
        obtain ⟨v, hv⟩ := Option.isSome_iff_exists.mp hk
        simp [List.lookup, hv]
      · have hbeq : (k == k1) = false := by simp [hkk]
        simp [List.lookup, hbeq]
    · rw [if_neg hk]
      rw [lookup_append]
      have hnone : acc.lookup k1 = none := Option.not_isSome_iff_eq_none.mp hk
      by_cases hkk : k = k1
      · subst hkk
        simp [List.lookup, hnone]
      · have hbeq : (k == k1) = false := by simp [hkk]
        simp [List.lookup, hbeq, Option.or_assoc]

theorem regDetectionSwallowed (msg : String)
    (envResult : Except PyError RuntimeMap) :
    search_ipy_merge (.error (.detectionError msg)) envResult =
      search_ipy_merge (.ok []) envResult := rfl

theorem envDetectionSwallowed (msg : String)
    (regResult : Except PyError RuntimeMap) :
    search_ipy_merge regResult (.error (.detectionError msg)) =
      search_ipy_merge regResult (.ok []) := by
  unfold search_ipy_merge
  cases hcd : catchDetection regResult with
  | error e => rfl
  | ok f => rfl

theorem merge_lookup_precedence (rm em : RuntimeMap) (k : VersionKey) :
    ((rm.lookup k).isSome →
      (mergeEnvIntoReg rm em).lookup k = rm.lookup k)
    ∧ (rm.lookup k = none →
      (mergeEnvIntoReg rm em).lookup k = List.lookup k em) := by
  constructor
  · intro hk
    obtain ⟨v, hv⟩ := Option.isSome_iff_exists.mp hk
    rw [lookup_mergeEnvIntoReg, hv]
    rfl
  · intro hk
    rw [lookup_mergeEnvIntoReg, hk]
    simp

theorem search_ipy_merge_ok_ok (rm em : RuntimeMap) :
    ((∃ e, search_ipy_merge (.ok rm) (.ok em) = .error e) ↔
      mergeEnvIntoReg rm em = [])
    ∧ (∀ e, search_ipy_merge (.ok rm) (.ok em) = .error e →
        e = .detectionError "Could not find any IronPython directory.") := by
  constructor
  · constructor
    · rintro ⟨e, he⟩
      by_contra hne
      simp [search_ipy_merge, catchDetection, hne] at he
    · intro hm
      exact ⟨PyError.detectionError "Could not find any IronPython directory.",
        by simp [search_ipy_merge, catchDetection, hm]⟩
  · intro e he
    by_cases hm : mergeEnvIntoReg rm em = []
    · simp [search_ipy_merge, catchDetection, hm] at he
      exact he.symm
    · simp [search_ipy_merge, catchDetection, hm] at he

theorem merge_error_characterisation
    (regResult envResult : Except PyError RuntimeMap)
    (hr : okOrDetection regResult) (he : okOrDetection envResult) :
    ((∃ e, search_ipy_merge regResult envResult = .error e) ↔
      mergeEnvIntoReg (probeMap regResult) (probeMap envResult) = [])
    ∧ (∀ e, search_ipy_merge regResult envResult = .error e →
        e = .detectionError "Could not find any IronPython directory.") := by
  rcases regResult with e1 | rm
  · rcases e1 with m | m
    · rcases envResult with e2 | em
      · rcases e2 with m2 | m2
        · exact search_ipy_merge_ok_ok [] []
        · exact absurd he (by simp [okOrDetection])
      · exact search_ipy_merge_ok_ok [] em
    · exact absurd hr (by simp [okOrDetection])
  · rcases envResult with e2 | em
    · rcases e2 with m2 | m2
      · exact search_ipy_merge_ok_ok rm []
      · exact absurd he (by simp [okOrDetection])
    · exact search_ipy_merge_ok_ok rm em

/-- Claim C5: in the combining layer of `search_ipy`, a detection failure
of either probe is treated exactly as an empty result map and never
propagated; the merge gives registry entries precedence on key collision
and uses a search-path entry only for keys the registry map lacks; and the
combined discovery fails — always with the final
`IronPythonDetectionError` — if and only if the merged map is empty. -/
theorem search_ipy_combined_discovery :
    (∀ (msg : String) (envResult : Except PyError RuntimeMap),
      search_ipy_merge (.error (.detectionError msg)) envResult =
        search_ipy_merge (.ok []) envResult)
    ∧ (∀ (msg : String) (regResult : Except PyError RuntimeMap),
      search_ipy_merge regResult (.error (.detectionError msg)) =
        search_ipy_merge regResult (.ok []))
    ∧ (∀ (rm em : RuntimeMap) (k : VersionKey),
      ((rm.lookup k).isSome →
        (mergeEnvIntoReg rm em).lookup k = rm.lookup k)
      ∧ (rm.lookup k = none →
        (mergeEnvIntoReg rm em).lookup k = List.lookup k em))
    ∧ (∀ (regResult envResult : Except PyError RuntimeMap),
      okOrDetection regResult → okOrDetection envResult →
      ((∃ e, search_ipy_merge regResult envResult = .error e) ↔
        mergeEnvIntoReg (probeMap regResult) (probeMap envResult) = [])
      ∧ (∀ e, search_ipy_merge regResult envResult = .error e →
          e = .detectionError "Could not find any IronPython directory.")) :=
  ⟨regDetectionSwallowed, envDetectionSwallowed, merge_lookup_precedence,
   merge_error_characterisation⟩

/-- Witness for claim C5: on a concrete collision of the key `2.7`, the
merged map keeps the registry directory, and the registry's miss on key
`2.6` is filled from the search-path map. -/
theorem search_ipy_combined_discovery_witness :
    (mergeEnvIntoReg [(.reduced "2.7", "/reg27")]
        [(.reduced "2.7", "/env27"), (.reduced "2.6", "/env26")]).lookup
        (.reduced "2.7")
      = List.lookup (VersionKey.reduced "2.7")
          ([(.reduced "2.7", "/reg27")] : RuntimeMap)
    ∧ (mergeEnvIntoReg [(.reduced "2.7", "/reg27")]
        [(.reduced "2.7", "/env27"), (.reduced "2.6", "/env26")]).lookup
        (.reduced "2.6")
      = List.lookup (VersionKey.reduced "2.6")
          ([(.reduced "2.7", "/env27"), (.reduced "2.6", "/env26")] : RuntimeMap) :=
  ⟨(search_ipy_combined_discovery.2.2.1 [(.reduced "2.7", "/reg27")]
      [(.reduced "2.7", "/env27"), (.reduced "2.6", "/env26")]
      (.reduced "2.7")).1 (by decide),
   (search_ipy_combined_discovery.2.2.1 [(.reduced "2.7", "/reg27")]
      [(.reduced "2.7", "/env27"), (.reduced "2.6", "/env26")]
      (.reduced "2.6")).2 (by decide)⟩

/-- Claim C6: of the three conditions the claim lists, two indeed raise
`IronPythonDetectionError` — an unavailable registry module and no child
key validating — but when no candidate registry key path exists the source
first evaluates `ipybasekey.Close()` with `ipybasekey = None`, so Python
raises `AttributeError` and the `IronPythonDetectionError` on the next
line (promised by the function's own docstring) is unreachable. -/
theorem search_ipy_reg_close_bug :
    search_ipy_reg
      { cwd := "/w", winregAvailable := true, keyExists := fun _ => false,
        subkeys := fun _ => [], installPathValue := fun _ _ => "",
        validate := fun _ => none } REGKEYS EXECUTABLE false
      = .error (.attributeError "NoneType object has no attribute Close")
    ∧ search_ipy_reg
      { cwd := "/w", winregAvailable := false, keyExists := fun _ => false,
        subkeys := fun _ => [], installPathValue := fun _ _ => "",
        validate := fun _ => none } REGKEYS EXECUTABLE false
      = .error (.detectionError
          "Cannot import a module for accessing the Windows registry.")
    ∧ search_ipy_reg
      { cwd := "/w", winregAvailable := true, keyExists := fun _ => true,
        subkeys := fun _ => ["2.7"],
        installPathValue := fun _ _ => "/ipy27/ipy.exe",
        validate := fun _ => none } REGKEYS EXECUTABLE false
      = .error (.detectionError
          "Could not find any IronPython executable.") :=
  ⟨rfl, rfl, rfl⟩

/-! ## String order and path lemmas for claim C7 -/

theorem charEq_of_toNat_eq {a b : Char} (h : a.toNat = b.toNat) : a = b := by
  have hv : a.val = b.val := by
    have h' := h
    simp [Char.toNat, UInt32.toNat] at h'
    exact UInt32.eq_of_toBitVec_eq (BitVec.eq_of_toNat_eq h')
  exact Char.eq_of_val_eq hv

theorem strListLt_total : ∀ a b : List Char,
    a = b ∨ strListLt a b = true ∨ strListLt b a = true := by
  intro a
  induction a with
  | nil =>
    intro b
    cases b with
    | nil => exact Or.inl rfl
    | cons y ys => exact Or.inr (Or.inl rfl)
  | cons x xs ih =>
    intro b
    cases b with
    | nil => exact Or.inr (Or.inr rfl)
    | cons y ys =>
      rcases Nat.lt_trichotomy x.toNat y.toNat with h | h | h
      · exact Or.inr (Or.inl (by simp [strListLt, h]))
      · have hxy : x = y := charEq_of_toNat_eq h
        subst hxy
        rcases ih ys with he | hlt | hgt
        · exact Or.inl (by rw [he])
        · refine Or.inr (Or.inl ?_)
          simp only [strListLt, Nat.lt_irrefl, if_false]
          exact hlt
        · refine Or.inr (Or.inr ?_)
          simp only [strListLt, Nat.lt_irrefl, if_false]
          exact hgt
      · exact Or.inr (Or.inr (by simp [strListLt, h]))

theorem strListLt_trans : ∀ a b c : List Char,
    strListLt a b = true → strListLt b c = true → strListLt a c = true := by
  intro a
  induction a with
  | nil =>
    intro b c hab hbc
    cases c with
    | nil =>
      cases b with
      | nil => exact hab
      | cons y ys => simp [strListLt] at hbc
    | cons z zs => rfl
  | cons x xs ih =>
    intro b c hab hbc
    cases b with
    | nil => simp [strListLt] at hab
    | cons y ys =>
      cases c with
      | nil => simp [strListLt] at hbc
      | cons z zs =>
        rcases Nat.lt_trichotomy x.toNat y.toNat with hxy | hxy | hxy
        · rcases Nat.lt_trichotomy y.toNat z.toNat with hyz | hyz | hyz
          · simp [strListLt, Nat.lt_trans hxy hyz]
          · simp [strListLt, hyz ▸ hxy]
          · simp [strListLt, Nat.lt_asymm hyz, hyz] at hbc
        · have hx : x = y := charEq_of_toNat_eq hxy
          subst hx
          have hab' : strListLt xs ys = true := by
            simpa [strListLt, Nat.lt_irrefl] using hab
          rcases Nat.lt_trichotomy x.toNat z.toNat with hxz | hxz | hxz
          · simp [strListLt, hxz]
          · have hx2 : x = z := charEq_of_toNat_eq hxz
            subst hx2
            have hbc' : strListLt ys zs = true := by
              simpa [strListLt, Nat.lt_irrefl] using hbc
            simp only [strListLt, Nat.lt_irrefl, if_false]
            exact ih ys zs hab' hbc'
          · simp [strListLt, Nat.lt_asymm hxz, hxz] at hbc
        · simp [strListLt, Nat.lt_asymm hxy, hxy] at hab

theorem strLtB_trans {a b c : String}
    (h1 : strLtB a b = true) (h2 : strLtB b c = true) : strLtB a c = true :=
  strListLt_trans a.data b.data c.data h1 h2

theorem strLtB_or {a b : String} (h : a ≠ b) :
    strLtB a b = true ∨ strLtB b a = true := by
  rcases strListLt_total a.data b.data with he | h1 | h1
  · refine absurd ?_ h
    cases a
    cases b
    exact congrArg _ he
  · exact Or.inl h1
  · exact Or.inr h1

theorem pairwise_setInsert (x : String) (l : List String)
    (h : l.Pairwise (fun a b => strLtB a b = true)) :
    (setInsert x l).Pairwise (fun a b => strLtB a b = true) := by
  induction l with
  | nil => simp [setInsert]
  | cons y ys ih =>
    have hp := List.pairwise_cons.mp h
    simp only [setInsert]
    split_ifs with h1 h2
    · refine List.pairwise_cons.mpr ⟨?_, h⟩
      intro b hb
      rcases List.mem_cons.mp hb with hby | hbys
      · subst hby; exact h1
      · exact strLtB_trans h1 (hp.1 b hbys)
    · exact h
    · refine List.pairwise_cons.mpr ⟨?_, ih hp.2⟩
      intro b hb
      rcases (mem_setInsert b x ys).mp hb with hbx | hbys
      · subst hbx
        rcases strLtB_or h2 with hc | hc
        · exact absurd hc h1
        · exact hc
      · exact hp.1 b hbys

theorem pairwise_compilable_classify (cwd : String)
    (st : ModuleCompilerState) (m : FinderModule)
    (h : st.compilable_modules.Pairwise (fun a b => strLtB a b = true)) :
    (classifyModule cwd st m).compilable_modules.Pairwise
      (fun a b => strLtB a b = true) := by
  cases hf : m.file with
  | none => simpa only [classifyModule, hf] using h
  | some p =>
    simp only [classifyModule, hf]
    by_cases hext : (splitext p).2 = ".pyd"
    · rw [if_pos hext]; exact h
    · rw [if_neg hext]; exact pairwise_setInsert _ _ h

theorem pairwise_compilable_foldClassify (cwd : String)
    (ms : List FinderModule) :
    ∀ st : ModuleCompilerState,
      st.compilable_modules.Pairwise (fun a b => strLtB a b = true) →
      (ms.foldl (classifyModule cwd) st).compilable_modules.Pairwise
        (fun a b => strLtB a b = true) := by
  induction ms with
  | nil => exact fun st h => h
  | cons m ms ih =>
    intro st h
    exact ih _ (pairwise_compilable_classify cwd st m h)

theorem pairwise_compilable_foldProcess (cwd : String)
    (finder : String → FinderResult) (scripts : List String) :
    ∀ st : ModuleCompilerState,
      st.compilable_modules.Pairwise (fun a b => strLtB a b = true) →
      (scripts.foldl (processScript cwd finder) st).compilable_modules.Pairwise
        (fun a b => strLtB a b = true) := by
  induction scripts with
  | nil => exact fun st h => h
  | cons s ss ih =>
    intro st h
    exact ih _ (pairwise_compilable_foldClassify cwd _ _ h)

theorem pairwise_compilable_check (cwd : String)
    (finder : String → FinderResult) (st : ModuleCompilerState)
    (h : st.compilable_modules.Pairwise (fun a b => strLtB a b = true)) :
    (check_compilability cwd finder st).compilable_modules.Pairwise
      (fun a b => strLtB a b = true) :=
  (pairwise_compilable_foldProcess cwd finder st.paths_to_scripts st h).filter _

theorem strAppend_assoc (a b c : String) : a ++ b ++ c = a ++ (b ++ c) := by
  cases a
  cases b
  cases c
  exact congrArg _ (List.append_assoc _ _ _)

theorem lastIdxOf_append (c : Char) (xs ys : List Char) (i : Nat)
    (h : ys.reverse.findIdx? (fun d => d = c) = some i) :
    lastIdxOf c (xs ++ ys) = some (xs.length + ys.length - 1 - i) := by
  unfold lastIdxOf
  rw [List.reverse_append, List.findIdx?_append]
  simp [h, List.length_append]

theorem joinPath_abs (cwd b : String) (h1 : strStartsWith cwd "/" = true)
    (h2 : strEndsWith cwd "/" = false) (hb : strStartsWith b "/" = false) :
    joinPath cwd b = cwd ++ "/" ++ b := by
  unfold joinPath
  rw [if_neg (by simp [hb]), if_neg]
  rintro (hc | hc)
  · rw [h2] at hc
    exact Bool.false_ne_true hc
  · subst hc
    exact absurd h1 (by decide)

theorem drop_append_plus (l₁ l₂ : List Char) (n : Nat) :
    (l₁ ++ l₂).drop (l₁.length + n) = l₂.drop n := by
  simp [List.drop_append]

theorem take_append_plus (l₁ l₂ : List Char) (n : Nat) :
    (l₁ ++ l₂).take (l₁.length + n) = l₁ ++ l₂.take n := by
  simp [List.take_append]

theorem basename_main_ipy (cwd : String) :
    basename (cwd ++ "/main.ipy") = "main.ipy" := by
  have hidx : lastIdxOf '/' (cwd ++ "/main.ipy").data
      = some (cwd.data.length + "/main.ipy".data.length - 1 - 8) := by
    rw [String.data_append]
    exact lastIdxOf_append '/' cwd.data "/main.ipy".data 8 (by decide)
  have hlen : cwd.data.length + "/main.ipy".data.length - 1 - 8 + 1
      = cwd.data.length + 1 := by
    have h9 : "/main.ipy".data.length = 9 := by decide
    omega
  unfold basename
  simp only [hidx]
  rw [hlen, String.data_append, drop_append_plus cwd.data "/main.ipy".data 1]
  rfl

theorem splitext_main_exe (cwd : String) :
    splitext (cwd ++ "/main.exe") = (cwd ++ "/main", ".exe") := by
  have h9 : "/main.exe".data.length = 9 := by decide
  have hdot : lastIdxOf '.' (cwd ++ "/main.exe").data
      = some (cwd.data.length + "/main.exe".data.length - 1 - 3) := by
    rw [String.data_append]
    exact lastIdxOf_append '.' cwd.data "/main.exe".data 3 (by decide)
  have hsl : lastIdxOf '/' (cwd ++ "/main.exe").data
      = some (cwd.data.length + "/main.exe".data.length - 1 - 8) := by
    rw [String.data_append]
    exact lastIdxOf_append '/' cwd.data "/main.exe".data 8 (by decide)
  have hd5 : cwd.data.length + "/main.exe".data.length - 1 - 3
      = cwd.data.length + 5 := by omega
  have hs1 : cwd.data.length + "/main.exe".data.length - 1 - 8 + 1
      = cwd.data.length + 1 := by omega
  unfold splitext
  simp only [hdot, hsl, Option.map_some', Option.getD_some]
  rw [hd5, hs1]
  rw [if_pos]
  · rw [Prod.mk.injEq]
    constructor
    · rw [String.data_append, take_append_plus cwd.data "/main.exe".data 5]
      rfl
    · rw [String.data_append, drop_append_plus cwd.data "/main.exe".data 5]
      rfl
  · refine ⟨by omega, ?_⟩
    rw [List.any_eq_true]
    refine ⟨cwd.data.length + 1, List.mem_range.mpr (by omega), ?_⟩
    rw [decide_eq_true_eq]
    refine ⟨by omega, ?_⟩
    rw [String.data_append, List.get?_append_right (by omega)]
    simp

/-! ## Claim C7 -/

/-- Claim C7, counterexample: for `create_asm` with scripts `["main.ipy"]`
under working directory `/w`, target `exe`, platform `x86`, `embed = true`,
`standalone = false` and no explicit output name, the first response-file
line is `/out:/w/main` — the absolute output path with the extension
stripped — and not the claimed `/out:main`. -/
theorem create_asm_out_line_cex :
    (create_asm "/w" (fun _ => ⟨[], []⟩)
        (ModuleCompiler_init "/w" ["main.ipy"] "/ipy" none)
        none "exe" (some "x86") true false false).pyc_args
      = ["/out:/w/main", "/target:exe", "/main:/w/main.ipy", "/platform:x86",
         "/embed", "/w/main.ipy"]
    ∧ (create_asm "/w" (fun _ => ⟨[], []⟩)
        (ModuleCompiler_init "/w" ["main.ipy"] "/ipy" none)
        none "exe" (some "x86") true false false).pyc_args
      ≠ ["/out:main", "/target:exe", "/main:/w/main.ipy", "/platform:x86",
         "/embed", "/w/main.ipy"] := by
  refine ⟨by decide, by decide⟩

/-- Claim C7, amended: under any absolute working directory `cwd` (not
slash-terminated), the response-file arguments for scripts `["main.ipy"]`,
target `exe`, platform `x86`, `embed = true`, `standalone = false` are
exactly `/out:<cwd>/main`, `/target:exe`, `/main:<cwd>/main.ipy`,
`/platform:x86`, `/embed`, followed by the script path and the compilable
module paths in the modelled set's iteration order (ascending, hence
sorted); and the response-file content appends each argument as one
newline-terminated line in order. -/
theorem create_asm_response_construction (cwd ipy_dir : String)
    (finder : String → FinderResult)
    (h1 : strStartsWith cwd "/" = true) (h2 : strEndsWith cwd "/" = false) :
    (create_asm cwd finder (ModuleCompiler_init cwd ["main.ipy"] ipy_dir none)
        none "exe" (some "x86") true false false).pyc_args
      = ["/out:" ++ (cwd ++ "/main"), "/target:exe",
         "/main:" ++ (cwd ++ "/main.ipy"), "/platform:x86", "/embed",
         cwd ++ "/main.ipy"]
        ++ (create_asm cwd finder
            (ModuleCompiler_init cwd ["main.ipy"] ipy_dir none)
            none "exe" (some "x86") true false false).state.compilable_modules
    ∧ (create_asm cwd finder (ModuleCompiler_init cwd ["main.ipy"] ipy_dir none)
        none "exe" (some "x86") true false false).state.compilable_modules.Pairwise
        (fun a b => strLtB a b = true)
    ∧ response_file_content [] = ""
    ∧ (∀ (args : List String) (line : String),
        response_file_content (args ++ [line])
          = response_file_content args ++ line ++ "\n") := by
  have hscript : abspath cwd "main.ipy" = cwd ++ "/main.ipy" := by
    rw [show abspath cwd "main.ipy" = joinPath cwd "main.ipy" from rfl,
      joinPath_abs cwd "main.ipy" h1 h2 (by decide), strAppend_assoc]
    exact congrArg (fun t => cwd ++ t) (by decide)
  have hjoin_exe : joinPath cwd "main.exe" = cwd ++ "/main.exe" := by
    rw [joinPath_abs cwd "main.exe" h1 h2 (by decide), strAppend_assoc]
    exact congrArg (fun t => cwd ++ t) (by decide)
  have hinit : (ModuleCompiler_init cwd ["main.ipy"] ipy_dir none).paths_to_scripts
      = [cwd ++ "/main.ipy"] := by
    simp only [ModuleCompiler_init, List.map]
    rw [hscript]
  have hpathsA : (check_compilability cwd finder
      (ModuleCompiler_init cwd ["main.ipy"] ipy_dir none)).paths_to_scripts
      = [cwd ++ "/main.ipy"] := by
    have hle := foldl_process_le cwd finder
      (ModuleCompiler_init cwd ["main.ipy"] ipy_dir none).paths_to_scripts
      (ModuleCompiler_init cwd ["main.ipy"] ipy_dir none)
    exact hle.1.symm.trans hinit
  refine ⟨?_, ?_, rfl, ?_⟩
  · simp only [create_asm]
    rw [if_pos (show (ModuleCompiler_init cwd ["main.ipy"] ipy_dir
        none).compilable_modules = [] from rfl)]
    rw [hpathsA]
    simp only [List.headD]
    rw [basename_main_ipy cwd]
    rw [show splitext "main.ipy" = ("main", ".ipy") from by decide]
    rw [if_neg (show ¬(("exe" : String) = "winexe" ∧ false = true) from by simp)]
    rw [if_pos (show True ∨ ("exe" : String) = "winexe" from Or.inl trivial)]
    rw [if_pos (show True ∨ ("exe" : String) = "winexe" from Or.inl trivial)]
    rw [if_pos (show True ∨ ("x86" : String) = "x64" from Or.inl trivial)]
    rw [show (("main", ".ipy").1 ++ ".exe" : String) = "main.exe" from by decide]
    rw [hjoin_exe, splitext_main_exe cwd]
    rw [show ("/target:" ++ "exe" : String) = "/target:exe" from by decide]
    rw [show ("/platform:" ++ "x86" : String) = "/platform:x86" from by decide]
    simp [List.append_assoc]
  · exact pairwise_compilable_check cwd finder
      (ModuleCompiler_init cwd ["main.ipy"] ipy_dir none) List.Pairwise.nil
  · intro args line
    unfold response_file_content
    rw [List.foldl_append]
    rfl

/-- Witness for the amended claim C7 at the concrete working directory
`/w`: the response-file argument list evaluates to the stated lines. -/
theorem create_asm_response_construction_witness :
    (create_asm "/w" (fun _ => ⟨[], []⟩)
        (ModuleCompiler_init "/w" ["main.ipy"] "/ipy" none)
        none "exe" (some "x86") true false false).pyc_args
      = ["/out:" ++ ("/w" ++ "/main"), "/target:exe",
         "/main:" ++ ("/w" ++ "/main.ipy"), "/platform:x86", "/embed",
         "/w" ++ "/main.ipy"]
        ++ (create_asm "/w" (fun _ => ⟨[], []⟩)
            (ModuleCompiler_init "/w" ["main.ipy"] "/ipy" none)
            none "exe" (some "x86") true false false).state.compilable_modules :=
  (create_asm_response_construction "/w" "/ipy" (fun _ => ⟨[], []⟩)
    (by decide) (by decide)).1
